import Mathlib

/-!
Verification development for the ipsa_sched demo (src/ipsa_sched.c).

The file shallowly embeds the program's own code (binarySearch, the task
bodies' computations, the startup control flow of ipsa_sched) and, for the
RTOS primitives the program merely calls (queue, software timer, delay-until),
models their behaviour from the specification, since the kernel sources are
not part of src/.  C ints are embedded as unbounded Int; 64-bit signed
overflow is made explicit with reduction modulo 2 ^ 64.
-/

namespace IpsaSched

/-! ## Binary search (src/ipsa_sched.c, lines 240-255)

The C loop is embedded as a well-founded recursion on the size of the
interval.  The function body has a return statement only inside the loop
(return 0 when the probe hits the target); when the loop exits because
left > right, control falls off the end of the function with no return,
which the embedding records as the result none. -/

def bsLoop (arr : List Int) (target : Int) (left right : Int) : Option Int :=
  if _h : left ≤ right then
    let mid := left + (right - left) / 2
    if arr.getD mid.toNat 0 = target then
      some 0
    else if arr.getD mid.toNat 0 < target then
      bsLoop arr target (mid + 1) right
    else
      bsLoop arr target left (mid - 1)
  else
    none
termination_by (right + 1 - left).toNat
decreasing_by all_goals omega

def binarySearch (arr : List Int) (size : Int) (target : Int) : Option Int :=
  bsLoop arr target 0 (size - 1)

/-! ## Task4's fixed data (src/ipsa_sched.c, lines 264-270) -/

def elements : List Int :=
  [2, 4, 7, 12, 15, 20, 22, 25, 28, 30,
   32, 35, 40, 42, 45, 48, 50, 55, 60, 62,
   65, 70, 75, 80, 82, 85, 88, 90, 92, 95,
   100, 105, 110, 112, 115, 118, 120, 122, 125, 130,
   135, 140, 145, 150, 155, 160, 165, 170, 175, 180]

def targetElement : Int := 15

/-! ## Task3's arithmetic (src/ipsa_sched.c, lines 230-232)

long int on the 64-bit target is a signed 64-bit integer; the product of the
two constants is taken with two's-complement wraparound, i.e. the true
product reduced modulo 2 ^ 64 and re-centred into [-2 ^ 63, 2 ^ 63). -/

def num1 : Int := 3287648234862934629

def num2 : Int := 2346723849729472340

def int64Wrap (x : Int) : Int := (x + 2 ^ 63) % 2 ^ 64 - 2 ^ 63

def task3Result : Int := int64Wrap (num1 * num2)

/-! ## Task2's conversion (src/ipsa_sched.c, lines 207-214)

The C code computes in double precision; the embedding abstracts the doubles
as exact rationals, which is the formula the spec states. -/

def fahrenheit : ℚ := 100

def task2Celsius : ℚ := (5 / 9) * (fahrenheit - 32)

/-! ## Fuel-indexed version of the binary-search loop

Used to state termination: the loop, run one iteration per unit of fuel,
completes (yields some outcome) whenever the fuel exceeds the size of the
initial interval, because each iteration strictly shrinks the interval. -/

def bsLoopF (arr : List Int) (target : Int) (left right : Int) : Nat → Option (Option Int)
  | 0 => none
  | fuel + 1 =>
    if left ≤ right then
      let mid := left + (right - left) / 2
      if arr.getD mid.toNat 0 = target then
        some (some 0)
      else if arr.getD mid.toNat 0 < target then
        bsLoopF arr target (mid + 1) right fuel
      else
        bsLoopF arr target left (mid - 1) fuel
    else
      some none

/-! ## Bounded queue

The queue primitives live in the RTOS kernel, which is not part of src/;
only their call sites are.  They are therefore modelled from the spec. -/

/-- Modelled from the spec (missing kernel primitive xQueueCreate):
section 3, Bounded Queue — a fixed-capacity FIFO of fixed-size elements,
created once, initially holding no elements. -/
structure Queue where
  capacity : Nat
  elemSize : Nat
  items : List Nat
deriving DecidableEq

def xQueueCreate (len elemSize : Nat) : Queue :=
  { capacity := len, elemSize := elemSize, items := [] }

/-- Outcome of a send: success with the updated queue, immediate failure with
the queue unchanged, or entry into a blocked wait. -/
inductive SendResult where
  | ok (q : Queue)
  | fail (q : Queue)
  | blocked
deriving DecidableEq

/-- Modelled from the spec (missing kernel primitive xQueueSend):
section 4.2 — send returns false immediately if the queue is full and
maxWaitTicks == 0; otherwise it blocks; on success the value is appended
at the tail (FIFO). -/
def xQueueSend (q : Queue) (v : Nat) (wait : Nat) : SendResult :=
  if q.items.length < q.capacity then
    SendResult.ok { q with items := q.items ++ [v] }
  else if wait = 0 then
    SendResult.fail q
  else
    SendResult.blocked

/-- Outcome of a receive: a value with the updated queue, immediate failure,
or entry into a blocked wait. -/
inductive RecvResult where
  | ok (v : Nat) (q : Queue)
  | fail (q : Queue)
  | blocked
deriving DecidableEq

/-- Modelled from the spec (missing kernel primitive xQueueReceive):
section 4.2 — receive is symmetric to send for the empty case; the first
value enqueued is the first dequeued. -/
def xQueueReceive (q : Queue) (wait : Nat) : RecvResult :=
  match q.items with
  | [] => if wait = 0 then RecvResult.fail q else RecvResult.blocked
  | v :: rest => RecvResult.ok v { q with items := rest }

/-! ## Constants from src/ipsa_sched.c, lines 111-117, and sizeof(uint32_t) -/

def mainQUEUE_LENGTH : Nat := 4

def mainVALUE_SENT_FROM_TASK : Nat := 100

def mainVALUE_SENT_FROM_TIMER : Nat := 200

def sizeofUint32 : Nat := 4

/-! ## Software timer callback (src/ipsa_sched.c, lines 285-301)

The callback's whole effect is one xQueueSend of the tag value 200 with a
block time of 0 ticks. -/

def prvQueueSendTimerCallback (q : Queue) : SendResult :=
  xQueueSend q mainVALUE_SENT_FROM_TIMER 0

/-! ## Startup control flow of ipsa_sched (src/ipsa_sched.c, lines 146-185)

The two fallible creations (xQueueCreate and xTimerCreate returning NULL on
heap exhaustion) are the parameters.  The source guards the whole task /
scheduler startup on xQueue != NULL, but guards only the xTimerStart call on
xTimer != NULL; vTaskStartScheduler does not return once started, so the
trailing for(;;) idle loop is reached exactly when the scheduler was never
started. -/

structure StartupResult where
  queueCreateCalls : Nat
  createdQueue : Option Queue
  timerCreated : Bool
  timerStarted : Bool
  tasksCreated : Nat
  schedulerStarted : Bool
  enteredIdleLoop : Bool
deriving DecidableEq

def ipsa_sched (queueOk timerOk : Bool) : StartupResult :=
  let q := xQueueCreate mainQUEUE_LENGTH sizeofUint32
  if queueOk then
    { queueCreateCalls := 1
      createdQueue := some q
      timerCreated := timerOk
      timerStarted := timerOk
      tasksCreated := 4
      schedulerStarted := true
      enteredIdleLoop := false }
  else
    { queueCreateCalls := 1
      createdQueue := none
      timerCreated := false
      timerStarted := false
      tasksCreated := 0
      schedulerStarted := false
      enteredIdleLoop := true }

/-! ## Periodic wake times

All four task bodies follow the same shape: xNextWakeTime :=
xTaskGetTickCount() once, then vTaskDelayUntil(&xNextWakeTime, period) each
cycle (src/ipsa_sched.c, lines 187-280). -/

/-- Modelled from the spec (missing kernel primitive vTaskDelayUntil):
glossary Delay-until — suspends until an absolute tick computed from the last
wake time plus the period, not from now; section 3 — nextWake += period each
cycle. -/
def vTaskDelayUntil (prevWake period : Nat) : Nat := prevWake + period

/-- The sequence of wake ticks of a periodic task whose first wake reference
is w0: one vTaskDelayUntil update per cycle. -/
def taskNextWake (w0 period : Nat) : Nat → Nat
  | 0 => w0
  | k + 1 => vTaskDelayUntil (taskNextWake w0 period k) period

/-- Modelled from the spec (configTICK_RATE_HZ lives in the port's FreeRTOSConfig.h,
not in src/): the standard tick rate of the Linux port, 1000 Hz, so that
pdMS_TO_TICKS is the identity on milliseconds. -/
def configTICK_RATE_HZ : Nat := 1000

def pdMS_TO_TICKS (ms : Nat) : Nat := ms * configTICK_RATE_HZ / 1000

def TASK1_FREQUENCY : Nat := pdMS_TO_TICKS 4000

def TASK2_FREQUENCY : Nat := pdMS_TO_TICKS 200

def TASK3_FREQUENCY : Nat := pdMS_TO_TICKS 3000

def TASK4_FREQUENCY : Nat := pdMS_TO_TICKS 800

/-! ## Theorems -/

/-- Interval-shrinking invariant argument: if the first n entries of arr are
sorted ascending and the target occurs at some index k with
left ≤ k ≤ right < n, then the loop hits the target and executes its
return 0.  Induction on a bound m for the interval size. -/
theorem bsLoop_finds (arr : List Int) (n : Nat) (target : Int)
    (hsort : ∀ i < n, ∀ j < n, i ≤ j → arr.getD i 0 ≤ arr.getD j 0) :
    ∀ (m : Nat) (left right : Int), (right + 1 - left).toNat ≤ m →
      0 ≤ left → right < (n : Int) →
      (∃ k : Int, left ≤ k ∧ k ≤ right ∧ arr.getD k.toNat 0 = target) →
      bsLoop arr target left right = some 0 := by
  intro m
  induction m with
  | zero =>
    intro left right hm hl hr hex
    obtain ⟨k, hk1, hk2, _⟩ := hex
    omega
  | succ m ih =>
    intro left right hm hl hr hex
    obtain ⟨k, hk1, hk2, hk3⟩ := hex
    have hlr : left ≤ right := le_trans hk1 hk2
    rw [bsLoop]
    rw [dif_pos hlr]
    set mid := left + (right - left) / 2 with hmid
    have hmid1 : left ≤ mid := by omega
    have hmid2 : mid ≤ right := by omega
    by_cases he : arr.getD mid.toNat 0 = target
    · rw [if_pos he]
    · rw [if_neg he]
      by_cases hlt : arr.getD mid.toNat 0 < target
      · rw [if_pos hlt]
        apply ih (mid + 1) right (by omega) (by omega) hr
        refine ⟨k, ?_, hk2, hk3⟩
        by_contra hcon
        push_neg at hcon
        have h1 : k.toNat ≤ mid.toNat := by omega
        have h2 : k.toNat < n := by omega
        have h3 : mid.toNat < n := by omega
        have hle := hsort k.toNat h2 mid.toNat h3 h1
        rw [hk3] at hle
        omega
      · rw [if_neg hlt]
        apply ih left (mid - 1) (by omega) hl (by omega)
        refine ⟨k, hk1, ?_, hk3⟩
        by_contra hcon
        push_neg at hcon
        have h1 : mid.toNat ≤ k.toNat := by omega
        have h2 : k.toNat < n := by omega
        have h3 : mid.toNat < n := by omega
        have hle := hsort mid.toNat h3 k.toNat h2 h1
        rw [hk3] at hle
        omega

/-- Claim C1: the spec's binary-search contract — return an index i with
A[i] == t when t occurs, and a distinguished not-found indicator when it
does not — is violated by the code.  At the sorted array [1, 5] with
target 5 the function returns 0 although the element at index 0 is 1, not 5
(the target sits at index 1); and at absent target 3 execution falls off the
end of the function with no return at all (embedded as none). -/
theorem binarySearch_contract_violated :
    binarySearch [1, 5] 2 5 = some 0 ∧ List.getD [1, 5] 0 (0 : Int) ≠ 5 ∧
    List.getD [1, 5] 1 (0 : Int) = 5 ∧
    binarySearch [1, 5] 2 3 = none := by
  refine ⟨?_, by decide, by decide, ?_⟩ <;> simp [binarySearch, bsLoop]

/-- Claim C2, counterexample: when queue creation succeeds but timer creation
fails (xTimerCreate returns NULL), the source still creates the four tasks
and reaches vTaskStartScheduler — the scheduler IS started and the idle loop
is not entered, contradicting the claim that failure of any mandatory
component (queue or timer) prevents scheduler start. -/
theorem ipsa_sched_timer_fail_still_starts :
    (ipsa_sched true false).timerCreated = false ∧
    (ipsa_sched true false).schedulerStarted = true ∧
    (ipsa_sched true false).enteredIdleLoop = false := by decide

/-- Claim C2, amended: only queue-creation failure makes startup fall closed
into the idle loop without starting the scheduler; a timer-creation failure
merely skips starting the timer (the guarded xTimerStart call) while the
scheduler still starts. -/
theorem ipsa_sched_queue_guarded_start :
    ∀ timerOk : Bool,
      (ipsa_sched false timerOk).schedulerStarted = false ∧
      (ipsa_sched false timerOk).enteredIdleLoop = true ∧
      (ipsa_sched true timerOk).schedulerStarted = true ∧
      (ipsa_sched true timerOk).enteredIdleLoop = false ∧
      (ipsa_sched true timerOk).timerStarted = timerOk := by decide

/-- Claim C3: there is an input — a sorted array together with a target that
does not occur in it — on which binarySearch runs the loop to exhaustion and
falls off the end of the function without executing any return statement;
the embedding's not-found branch yields no defined result (none). -/
theorem binarySearch_notfound_undefined :
    ∃ (arr : List Int) (n t : Int),
      (∀ i < arr.length, ∀ j < arr.length, i ≤ j → arr.getD i 0 ≤ arr.getD j 0) ∧
      t ∉ arr ∧ n = arr.length ∧ binarySearch arr n t = none := by
  refine ⟨[2, 4, 7], 3, 5, by decide, by decide, by decide, ?_⟩
  simp [binarySearch, bsLoop]

/-- Claim C4: whenever the target occurs in the (ascending-sorted) first n
entries of the array, n ≥ 1, binarySearch returns the constant 0 — not the
position of the occurrence. -/
theorem binarySearch_found_returns_zero (arr : List Int) (n : Nat) (target : Int)
    (hn : 1 ≤ n) (hlen : n ≤ arr.length)
    (hsort : ∀ i < n, ∀ j < n, i ≤ j → arr.getD i 0 ≤ arr.getD j 0)
    (hmem : ∃ i < n, arr.getD i 0 = target) :
    binarySearch arr (n : Int) target = some 0 := by
  obtain ⟨i, hi, hiv⟩ := hmem
  unfold binarySearch
  apply bsLoop_finds arr n target hsort n 0 ((n : Int) - 1) (by omega) (by omega) (by omega)
  refine ⟨(i : Int), by omega, by omega, ?_⟩
  simpa using hiv

/-- Claim C4, witness: Task4's fixed 50-element array with target 15, which
sits at index 4; the search returns 0, not 4. -/
theorem binarySearch_found_returns_zero_witness :
    1 ≤ 50 ∧ 50 ≤ elements.length ∧
    (∀ i < 50, ∀ j < 50, i ≤ j → elements.getD i 0 ≤ elements.getD j 0) ∧
    (∃ i < 50, elements.getD i 0 = targetElement) ∧
    binarySearch elements ((50 : Nat) : Int) targetElement = some 0 :=
  ⟨by decide, by decide, by decide, ⟨4, by decide, by decide⟩,
    binarySearch_found_returns_zero elements 50 targetElement (by decide) (by decide)
      (by decide) ⟨4, by decide, by decide⟩⟩

/-- Claim C5: the product of Task3's two fixed constants exceeds the signed
64-bit maximum 2 ^ 63 - 1, and the stored long int result is the
two's-complement wrap of the true product: it is congruent to the true
product modulo 2 ^ 64 and lies in [-2 ^ 63, 2 ^ 63). -/
theorem task3_overflow :
    2 ^ 63 - 1 < num1 * num2 ∧
    task3Result % 2 ^ 64 = num1 * num2 % 2 ^ 64 ∧
    -(2 ^ 63) ≤ task3Result ∧ task3Result < 2 ^ 63 := by
  refine ⟨by decide, by decide, by decide, by decide⟩

/-- Claim C6: for each of the four task periods, the next-wake tick advances
by exactly the period on every cycle, computed from the previous wake time
(closed form w0 + k * period), hence is monotonically non-decreasing and
consecutive activations differ by exactly the period, with no drift. -/
theorem task_nextWake_drift_free :
    ∀ p ∈ [TASK1_FREQUENCY, TASK2_FREQUENCY, TASK3_FREQUENCY, TASK4_FREQUENCY],
      ∀ (w0 k : Nat),
        taskNextWake w0 p (k + 1) = taskNextWake w0 p k + p ∧
        taskNextWake w0 p k ≤ taskNextWake w0 p (k + 1) ∧
        taskNextWake w0 p k = w0 + k * p := by
  intro p _ w0 k
  refine ⟨rfl, by simp [taskNextWake, vTaskDelayUntil], ?_⟩
  induction k with
  | zero => simp [taskNextWake]
  | succ k ihk =>
    show vTaskDelayUntil (taskNextWake w0 p k) p = w0 + (k + 1) * p
    rw [vTaskDelayUntil, ihk]
    ring

/-- Claim C6, witness: Task1's period, third activation after first wake
reference 7. -/
theorem task_nextWake_drift_free_witness :
    TASK1_FREQUENCY ∈ [TASK1_FREQUENCY, TASK2_FREQUENCY, TASK3_FREQUENCY, TASK4_FREQUENCY] ∧
    taskNextWake 7 TASK1_FREQUENCY 3 = taskNextWake 7 TASK1_FREQUENCY 2 + TASK1_FREQUENCY :=
  ⟨by simp, (task_nextWake_drift_free TASK1_FREQUENCY (by simp) 7 2).1⟩

/-- Claim C7: the timer callback is exactly one send of the tag value 200
with a maximum wait of zero ticks; it never blocks; on a queue with spare
room it appends the value, and on a full queue it fails immediately leaving
the queue unchanged. -/
theorem timer_callback_nonblocking :
    ∀ q : Queue,
      prvQueueSendTimerCallback q = xQueueSend q mainVALUE_SENT_FROM_TIMER 0 ∧
      prvQueueSendTimerCallback q ≠ SendResult.blocked ∧
      (q.items.length < q.capacity →
        prvQueueSendTimerCallback q =
          SendResult.ok { q with items := q.items ++ [mainVALUE_SENT_FROM_TIMER] }) ∧
      (q.items.length = q.capacity → prvQueueSendTimerCallback q = SendResult.fail q) := by
  intro q
  refine ⟨rfl, ?_, ?_, ?_⟩
  · unfold prvQueueSendTimerCallback xQueueSend
    split
    · simp
    · simp
  · intro hlt
    unfold prvQueueSendTimerCallback xQueueSend
    rw [if_pos hlt]
  · intro hfull
    unfold prvQueueSendTimerCallback xQueueSend
    rw [if_neg (by omega), if_pos rfl]

/-- Claim C7, witness: the callback on a full queue (4 items of capacity 4)
fails immediately with the queue unchanged. -/
theorem timer_callback_nonblocking_witness :
    (Queue.mk 4 4 [200, 200, 200, 200]).items.length =
      (Queue.mk 4 4 [200, 200, 200, 200]).capacity ∧
    prvQueueSendTimerCallback (Queue.mk 4 4 [200, 200, 200, 200]) =
      SendResult.fail (Queue.mk 4 4 [200, 200, 200, 200]) :=
  ⟨by decide, (timer_callback_nonblocking (Queue.mk 4 4 [200, 200, 200, 200])).2.2.2 (by decide)⟩

/-- Claim C8: startup calls xQueueCreate exactly once, with capacity
mainQUEUE_LENGTH = 4 and element size sizeof(uint32_t) = 4 bytes; the
created queue starts empty, and the occupancy count (a Nat, hence ≥ 0)
stays ≤ capacity under every successful send and receive. -/
theorem queue_capacity_four_invariant :
    mainQUEUE_LENGTH = 4 ∧ sizeofUint32 = 4 ∧
    (∀ queueOk timerOk : Bool,
      (ipsa_sched queueOk timerOk).queueCreateCalls = 1 ∧
      ∀ q ∈ (ipsa_sched queueOk timerOk).createdQueue,
        q.capacity = 4 ∧ q.elemSize = 4 ∧ q.items.length = 0) ∧
    (∀ (q : Queue) (v w : Nat) (q2 : Queue), q.items.length ≤ q.capacity →
      xQueueSend q v w = SendResult.ok q2 →
      q2.items.length ≤ q.capacity ∧ q2.capacity = q.capacity) ∧
    (∀ (q : Queue) (w : Nat) (v : Nat) (q2 : Queue), q.items.length ≤ q.capacity →
      xQueueReceive q w = RecvResult.ok v q2 →
      q2.items.length ≤ q.capacity ∧ q2.capacity = q.capacity) := by
  refine ⟨rfl, rfl, by decide, ?_, ?_⟩
  · intro q v w q2 hinv hsend
    unfold xQueueSend at hsend
    by_cases hlt : q.items.length < q.capacity
    · rw [if_pos hlt] at hsend
      cases hsend
      constructor
      · simp
        omega
      · rfl
    · rw [if_neg hlt] at hsend
      split at hsend <;> cases hsend
  · intro q w v q2 hinv hrecv
    unfold xQueueReceive at hrecv
    rcases hqi : q.items with _ | ⟨x, rest⟩
    · rw [hqi] at hrecv
      by_cases hw : w = 0
      · rw [if_pos hw] at hrecv
        cases hrecv
      · rw [if_neg hw] at hrecv
        cases hrecv
    · rw [hqi] at hrecv
      cases hrecv
      rw [hqi] at hinv
      simp at hinv ⊢
      omega

/-- Claim C8, witness: sending 200 into the queue holding [100] with
capacity 4 succeeds and keeps the count within capacity. -/
theorem queue_capacity_four_invariant_witness :
    (Queue.mk 4 4 [100]).items.length ≤ (Queue.mk 4 4 [100]).capacity ∧
    xQueueSend (Queue.mk 4 4 [100]) 200 0 = SendResult.ok (Queue.mk 4 4 [100, 200]) ∧
    (Queue.mk 4 4 [100, 200]).items.length ≤ (Queue.mk 4 4 [100]).capacity :=
  ⟨by decide, by decide,
    (queue_capacity_four_invariant.2.2.2.1 (Queue.mk 4 4 [100]) 200 0
      (Queue.mk 4 4 [100, 200]) (by decide) (by decide)).1⟩

/-- Claim C9: Task2's conversion, with the doubles abstracted as exact
rationals, computes celsius = (5/9) * (fahrenheit - 32) at the fixed input
fahrenheit = 100, which equals 340/9. -/
theorem task2_celsius_value :
    task2Celsius = 340 / 9 := by
  norm_num [task2Celsius, fahrenheit]

/-- One loop iteration per unit of fuel: with fuel strictly larger than the
current interval size, the fuelled loop completes and agrees with the
total denotation bsLoop; each iteration strictly shrinks the interval. -/
theorem bsLoopF_complete (arr : List Int) (target : Int) :
    ∀ (fuel : Nat) (left right : Int), (right + 1 - left).toNat < fuel →
      bsLoopF arr target left right fuel = some (bsLoop arr target left right) := by
  intro fuel
  induction fuel with
  | zero => intro left right h; omega
  | succ fuel ih =>
    intro left right h
    rw [bsLoop]
    by_cases hlr : left ≤ right
    · rw [dif_pos hlr]
      show (if left ≤ right then _ else _) = _
      rw [if_pos hlr]
      set mid := left + (right - left) / 2 with hmid
      have hmid1 : left ≤ mid := by omega
      have hmid2 : mid ≤ right := by omega
      by_cases he : arr.getD mid.toNat 0 = target
      · rw [if_pos he, if_pos he]
      · rw [if_neg he, if_neg he]
        by_cases hlt : arr.getD mid.toNat 0 < target
        · rw [if_pos hlt, if_pos hlt]
          exact ih (mid + 1) right (by omega)
        · rw [if_neg hlt, if_neg hlt]
          exact ih left (mid - 1) (by omega)
    · rw [dif_neg hlr]
      show (if left ≤ right then _ else _) = _
      rw [if_neg hlr]

/-- Claim C10: binarySearch terminates on every array, size and target —
run with an iteration budget exceeding the initial interval size (size
iterations suffice, since each iteration strictly decreases right - left),
the loop always completes with a definite outcome, the one binarySearch
denotes. -/
theorem binarySearch_terminating (arr : List Int) (size target : Int) (fuel : Nat)
    (h : size.toNat < fuel) :
    bsLoopF arr target 0 (size - 1) fuel = some (binarySearch arr size target) := by
  unfold binarySearch
  exact bsLoopF_complete arr target fuel 0 (size - 1) (by omega)

/-- Claim C10, witness: the search over [1, 5] for the absent target 3 with
iteration budget 3 completes. -/
theorem binarySearch_terminating_witness :
    (2 : Int).toNat < 3 ∧
    bsLoopF [1, 5] 3 0 (2 - 1) 3 = some (binarySearch [1, 5] 2 3) :=
  ⟨by decide, binarySearch_terminating [1, 5] 2 3 3 (by decide)⟩

end IpsaSched
